import Mathlib

/-!
Verification development for the `zfs_beskar_key` repository.

The source is shallowly embedded: pure Rust functions become Lean functions
on `Nat` (bytes), `Char`/`String` (text) and `List` (buffers); fallible code
returns `Except`; the external effects of the unlock orchestrator (ZFS
queries, USB file reads, passphrase prompts) are passed in as explicit
oracle functions and every effectful call is recorded in an event trace.
-/

namespace Beskar

/-! ## Byte and hex helpers (models of `u8`, `hex::encode` / `hex::decode`,
`char::is_ascii_hexdigit`, `str::eq_ignore_ascii_case`, `str::contains`). -/

/-- Model of Rust `char::is_ascii_hexdigit`: `0-9`, `a-f`, `A-F`. -/
def isAsciiHexDigit (c : Char) : Bool :=
  (('0' ≤ c && c ≤ '9') || ('a' ≤ c && c ≤ 'f') || ('A' ≤ c && c ≤ 'F'))

/-- Byte-level counterpart of `isAsciiHexDigit` (argument is a byte value). -/
def isAsciiHexDigitByte (b : Nat) : Bool :=
  ((48 ≤ b && b ≤ 57) || (97 ≤ b && b ≤ 102) || (65 ≤ b && b ≤ 70))

/-- Numeric value of a hex digit character (0 for non-digits; callers filter
with `isAsciiHexDigit` first, mirroring `hex::decode` after the hex filter). -/
def hexCharVal (c : Char) : Nat :=
  if '0' ≤ c && c ≤ '9' then c.toNat - 48
  else if 'a' ≤ c && c ≤ 'f' then c.toNat - 87
  else if 'A' ≤ c && c ≤ 'F' then c.toNat - 55
  else 0

/-- Numeric value of a hex digit given as an ASCII byte. -/
def hexByteVal (b : Nat) : Nat :=
  if 48 ≤ b && b ≤ 57 then b - 48
  else if 97 ≤ b && b ≤ 102 then b - 87
  else if 65 ≤ b && b ≤ 70 then b - 55
  else 0

/-- Lowercase hex digit character for a value `d < 16` (as `hex::encode`). -/
def hexDigitChar (d : Nat) : Char :=
  if d < 10 then Char.ofNat (48 + d) else Char.ofNat (87 + d)

/-- Lowercase hex digit as an ASCII byte for a value `d < 16`. -/
def hexDigitByte (d : Nat) : Nat :=
  if d < 10 then 48 + d else 87 + d

/-- Model of `hex::encode`: two lowercase hex chars per byte. -/
def hexEncode (bytes : List Nat) : String :=
  ⟨(bytes.map (fun b => [hexDigitChar (b / 16 % 16), hexDigitChar (b % 16)])).flatten⟩

/-- Encode bytes to the ASCII bytes of their lowercase hex expansion
(the on-disk form of a legacy hex key file). -/
def hexEncodeAsciiBytes (bytes : List Nat) : List Nat :=
  (bytes.map (fun b => [hexDigitByte (b / 16 % 16), hexDigitByte (b % 16)])).flatten

/-- Model of `hex::decode` on a list of hex-digit characters: consume the
digits two at a time, high nibble first. -/
def hexDecodeChars : List Char → List Nat
  | hi :: lo :: rest => (hexCharVal hi * 16 + hexCharVal lo) :: hexDecodeChars rest
  | _ => []

/-- `hex::decode` on hex digits given as ASCII bytes. -/
def hexDecodeByteChars : List Nat → List Nat
  | hi :: lo :: rest => (hexByteVal hi * 16 + hexByteVal lo) :: hexDecodeByteChars rest
  | _ => []

/-- ASCII lowercasing of a character (model of `u8::to_ascii_lowercase`). -/
def lowerAscii (c : Char) : Char :=
  if 'A' ≤ c && c ≤ 'Z' then Char.ofNat (c.toNat + 32) else c

/-- Model of `str::eq_ignore_ascii_case`. -/
def eqIgnoreAsciiCase (a b : String) : Bool :=
  a.data.map lowerAscii == b.data.map lowerAscii

/-- `listStartsWith needle hay` : is `needle` a prefix of `hay`? -/
def listStartsWith : List Char → List Char → Bool
  | [], _ => true
  | _ :: _, [] => false
  | a :: as_, b :: bs => a == b && listStartsWith as_ bs

/-- Does `needle` occur as a contiguous sublist of the second argument? -/
def listContainsSub (needle : List Char) : List Char → Bool
  | [] => needle.isEmpty
  | c :: t => listStartsWith needle (c :: t) || listContainsSub needle t

/-- Model of Rust `str::contains(needle)` (substring search). -/
def containsStr (hay needle : String) : Bool :=
  listContainsSub needle.data hay.data

/-! ## `src/util/lockout.rs` — adaptive lockout

`Duration` is modelled in whole seconds (`Nat`); the base delay is 5 s and
the maximum 60 s, exactly the constants in `Lockout::new`.  `Instant::now()`
is passed in as an explicit timestamp parameter. -/

/-- State of `struct Lockout` (`start: Option<Instant>`, `delay`,
`max_delay`), durations in seconds. -/
structure Lockout where
  start : Option Nat
  delay : Nat
  maxDelay : Nat
  deriving DecidableEq, Repr

/-- `Lockout::new()`: no prior failure, base delay 5 s, max 60 s. -/
def Lockout.new : Lockout :=
  { start := none, delay := 5, maxDelay := 60 }

/-- `Lockout::register_failure`: stamp the failure time and double the delay,
capped at `max_delay`. -/
def Lockout.registerFailure (now : Nat) (l : Lockout) : Lockout :=
  { l with start := some now, delay := min (l.delay * 2) l.maxDelay }

/-- `Lockout::reset`: clear the failure stamp and restore the 5 s base delay. -/
def Lockout.reset (l : Lockout) : Lockout :=
  { l with start := none, delay := 5 }

/-- Fold a sequence of `register_failure` calls (at the given timestamps)
over a lockout state, with no intervening `reset`. -/
def Lockout.applyFailures (l : Lockout) : List Nat → Lockout
  | [] => l
  | t :: ts => (l.registerFailure t).applyFailures ts

/-! ## `src/cmd/base.rs` — allowlisted command runner -/

/-- The fixed allowlist in `Cmd::new_allowlisted` (`src/cmd/base.rs`),
verbatim. -/
def allowedBinaries : List String :=
  [ "/sbin/zfs", "/usr/sbin/zfs", "/usr/local/sbin/zfs", "/bin/zfs",
    "/bin/systemctl", "/usr/bin/systemctl",
    "/sbin/zpool", "/usr/sbin/zpool", "/usr/local/sbin/zpool",
    "/usr/bin/dracut", "/usr/sbin/dracut",
    "/sbin/parted", "/usr/sbin/parted", "/usr/bin/parted",
    "/sbin/mkfs.ext4", "/usr/sbin/mkfs.ext4", "/usr/bin/mkfs.ext4",
    "/sbin/blkid", "/usr/sbin/blkid", "/usr/bin/blkid",
    "/bin/mount", "/usr/bin/mount",
    "/bin/umount", "/usr/bin/umount",
    "/bin/lsblk", "/usr/bin/lsblk",
    "/sbin/udevadm", "/usr/sbin/udevadm", "/usr/bin/udevadm",
    "/bin/systemd-ask-password", "/usr/bin/systemd-ask-password",
    "/bin/systemd-analyze", "/usr/bin/systemd-analyze" ]

/-- `struct Cmd` from `src/cmd/base.rs`: a binary path and a timeout
(seconds). -/
structure Cmd where
  path : String
  timeout : Nat
  deriving DecidableEq, Repr

/-- `Cmd::new_allowlisted` (`src/cmd/base.rs`): membership in the fixed
allowlist, else an error. -/
def Cmd.newAllowlisted (path : String) (timeout : Nat) : Except String Cmd :=
  if allowedBinaries.contains path then
    Except.ok { path := path, timeout := timeout }
  else
    Except.error ("Command not in allowlist: " ++ path)

/-! ## `src/util/keyfile.rs` — key file reading -/

/-- `enum KeyEncoding`. -/
inductive KeyEncoding where
  | raw
  | hex
  deriving DecidableEq, Repr

/-- `struct KeyMaterialDisk`: decoded key bytes plus detected encoding. -/
structure KeyMaterialDisk where
  raw : List Nat
  encoding : KeyEncoding
  deriving DecidableEq, Repr

/-- `read_key_material` (`src/util/keyfile.rs`), applied to the bytes read
from the key file.  A 32-byte file is returned unchanged as `Raw`; otherwise
the bytes are decoded as text and filtered to ASCII hex digits — UTF-8 lossy
decoding maps ASCII bytes to themselves and every non-ASCII sequence to
characters that are not hex digits, so the composite
`filter is_ascii_hexdigit ∘ from_utf8_lossy` equals a byte-level filter —
and exactly 64 hex digits decode to a 32-byte `Hex` key; anything else is
malformed. -/
def readKeyMaterial (data : List Nat) : Except String KeyMaterialDisk :=
  if data.length = 32 then
    Except.ok { raw := data, encoding := KeyEncoding.raw }
  else
    let cleaned := data.filter isAsciiHexDigitByte
    if cleaned.length = 64 then
      Except.ok { raw := hexDecodeByteChars cleaned, encoding := KeyEncoding.hex }
    else
      Except.error "Key file malformed (expected 32 raw bytes or 64 hex chars)."

/-! ## `src/config.rs` — the configuration fields consumed by the unlock
workflow. -/

/-- `struct Usb`: key file path and optional reference SHA-256 (hex). -/
structure UsbCfg where
  keyHexPath : String
  expectedSha256 : Option String
  deriving DecidableEq, Repr

/-- `struct Fallback`: passphrase fallback policy. -/
structure FallbackCfg where
  enabled : Bool
  askpass : Bool
  askpassPath : Option String
  deriving DecidableEq, Repr

/-- The slice of `struct ConfigFile` that `run_unlock` reads. -/
structure ConfigFile where
  usb : UsbCfg
  fallback : FallbackCfg
  deriving DecidableEq, Repr

/-- `struct UnlockOptions` (`src/cmd/unlock.rs`). -/
structure UnlockOptions where
  strictUsb : Bool
  deriving DecidableEq, Repr

/-! ## `src/cmd/unlock.rs` — `load_usb_key_material`

The USB key file is modelled as `UsbFs` (existence plus the outcome of
`fs::read_to_string`); the SHA-256 implementation lives in the external
`sha2` crate and is passed in as an oracle `sha : List Nat → List Nat`. -/

/-- State of the USB key file as seen by `load_usb_key_material`:
`Path::exists` plus the result of `fs::read_to_string`. -/
structure UsbFs where
  present : Bool
  content : Except String (List Char)

/-- Structured counterpart of the `anyhow!` errors raised by
`load_usb_key_material`. -/
inductive UsbErr where
  | notFound (path : String)
  | readFailed (msg : String)
  | malformed (foundLen : Nat)
  | checksumMismatch (expected actual : String)
  deriving DecidableEq, Repr

/-- Render a `UsbErr` as the message text the Rust code formats. -/
def UsbErr.render : UsbErr → String
  | UsbErr.notFound p => "Key file not found: " ++ p
  | UsbErr.readFailed m => "failed to read key file: " ++ m
  | UsbErr.malformed n =>
      "Key file malformed (expected 64 hex chars, found " ++ toString n ++ ")"
  | UsbErr.checksumMismatch e a =>
      "USB key checksum mismatch (expected " ++ e ++ ", found " ++ a ++ ")"

/-- `load_usb_key_material` (`src/cmd/unlock.rs` lines 285-325): require the
file to exist, read it as text, keep only ASCII hex digits, require exactly
64 of them, hex-decode, and if `config.usb.expected_sha256` is set demand a
case-insensitive match with the hex-encoded SHA-256 of the decoded bytes. -/
def loadUsbKeyMaterial (sha : List Nat → List Nat) (fs : UsbFs) (cfg : ConfigFile) :
    Except UsbErr (List Nat) :=
  if !fs.present then
    Except.error (UsbErr.notFound cfg.usb.keyHexPath)
  else
    match fs.content with
    | Except.error m => Except.error (UsbErr.readFailed m)
    | Except.ok text =>
      let cleaned := text.filter isAsciiHexDigit
      if cleaned.length ≠ 64 then
        Except.error (UsbErr.malformed cleaned.length)
      else
        let raw := hexDecodeChars cleaned
        match cfg.usb.expectedSha256 with
        | some expected =>
          let actual := hexEncode (sha raw)
          if eqIgnoreAsciiCase actual expected then Except.ok raw
          else Except.error (UsbErr.checksumMismatch expected actual)
        | none => Except.ok raw

/-! ## `src/cmd/unlock.rs` — `run_unlock`

The orchestrator's effects are supplied as oracles in `UnlockEnv`, indexed
by the attempt number where a call can happen once per attempt, and every
effectful call is logged as a `UEvent` so that "never prompts", "never
passes bytes to the key-load operation" and "at most 3 load attempts" are
statements about the trace. -/

/-- `enum KeyOrigin` (`src/cmd/unlock.rs`). -/
inductive KeyOrigin where
  | usb
  | passphrase
  deriving DecidableEq, Repr

/-- The effectful calls `run_unlock` can make, as trace events. -/
inductive UEvent where
  | usbRead (attempt : Nat)
  | promptPass (attempt : Nat)
  | loadKey (origin : KeyOrigin) (root : String) (key : List Nat)
  deriving DecidableEq, Repr

/-- The environment of `run_unlock`: outcomes of the ZFS queries, of
`load_usb_key_material` and of `prompt_fallback_passphrase`, per attempt. -/
structure UnlockEnv where
  isUnlocked : Except String Bool
  encryptionRoot : Except String String
  usbLoad : Nat → Except String (List Nat)
  promptFallback : Nat → Except String (List Nat)
  loadKeyTree : Nat → String → List Nat → Except String (List String)

/-- Structured counterpart of the `anyhow!` errors `run_unlock` returns. -/
inductive UnlockErr where
  | queryFailed (msg : String)
  | usbStrictFailed (usbMsg : String)
  | usbAndFallbackFailed (usbMsg fbMsg : String)
  | emptyFallbackAfterUsb
  | fallbackPromptFailed (msg : String)
  | emptyFallback
  | noSourcesRemain (root : String)
  | exhausted (maxAttempts : Nat) (root : String)
  deriving DecidableEq, Repr

/-- `const MAX_ATTEMPTS: usize = 3` (`src/cmd/unlock.rs`). -/
def MAX_ATTEMPTS : Nat := 3

/-- The needle of the `err_msg.contains("Key already loaded")` idempotence
check. -/
def alreadyLoadedNeedle : String := "Key already loaded"

/-- Encryption-root resolution in `run_unlock` step 2: on error the dataset
itself is used. -/
def resolveRoot (env : UnlockEnv) (dataset : String) : String :=
  match env.encryptionRoot with
  | Except.ok root => root
  | Except.error _ => dataset

/-- Outcome of the key-acquisition phase of one attempt: either a terminal
error, or key bytes with their origin and the updated `usb_available` flag;
both sides carry the events emitted while acquiring. -/
def acquireKey (env : UnlockEnv) (fallbackAllowed : Bool) (root : String)
    (attempt : Nat) (usbAvailable : Bool) :
    Except (UnlockErr × List UEvent) (List Nat × KeyOrigin × Bool × List UEvent) :=
  if usbAvailable then
    match env.usbLoad attempt with
    | Except.ok key =>
        Except.ok (key, KeyOrigin.usb, usbAvailable, [UEvent.usbRead attempt])
    | Except.error usbMsg =>
      if !fallbackAllowed then
        Except.error (UnlockErr.usbStrictFailed usbMsg, [UEvent.usbRead attempt])
      else
        match env.promptFallback attempt with
        | Except.error fbMsg =>
            Except.error (UnlockErr.usbAndFallbackFailed usbMsg fbMsg,
              [UEvent.usbRead attempt, UEvent.promptPass attempt])
        | Except.ok pass =>
          if pass.isEmpty then
            Except.error (UnlockErr.emptyFallbackAfterUsb,
              [UEvent.usbRead attempt, UEvent.promptPass attempt])
          else
            Except.ok (pass, KeyOrigin.passphrase, false,
              [UEvent.usbRead attempt, UEvent.promptPass attempt])
  else if fallbackAllowed then
    match env.promptFallback attempt with
    | Except.error fbMsg =>
        Except.error (UnlockErr.fallbackPromptFailed fbMsg, [UEvent.promptPass attempt])
    | Except.ok pass =>
      if pass.isEmpty then
        Except.error (UnlockErr.emptyFallback, [UEvent.promptPass attempt])
      else
        Except.ok (pass, KeyOrigin.passphrase, false, [UEvent.promptPass attempt])
  else
    Except.error (UnlockErr.noSourcesRemain root, [])

/-- The attempt loop of `run_unlock` (step 3): `remaining` counts the
attempts left, `attempt` is the 1-based attempt number, `usbAvailable`
mirrors the `usb_available` flag.  When the attempts are exhausted the loop
falls through to the explicit exhaustion error (step 5). -/
def unlockAttempts (env : UnlockEnv) (fallbackAllowed : Bool) (root : String) :
    Nat → Nat → Bool → Except UnlockErr Unit × List UEvent
  | 0, _, _ => (Except.error (UnlockErr.exhausted MAX_ATTEMPTS root), [])
  | remaining + 1, attempt, usbAvailable =>
    match acquireKey env fallbackAllowed root attempt usbAvailable with
    | Except.error (e, evs) => (Except.error e, evs)
    | Except.ok (key, origin, usbAvail1, evs0) =>
      let evs := evs0 ++ [UEvent.loadKey origin root key]
      match env.loadKeyTree attempt root key with
      | Except.ok _ => (Except.ok (), evs)
      | Except.error msg =>
        match origin, fallbackAllowed with
        | KeyOrigin.usb, true =>
          let r := unlockAttempts env fallbackAllowed root remaining (attempt + 1) false
          (r.1, evs ++ r.2)
        | _, _ =>
          if containsStr msg alreadyLoadedNeedle then (Except.ok (), evs)
          else
            let r := unlockAttempts env fallbackAllowed root remaining (attempt + 1) usbAvail1
            (r.1, evs ++ r.2)

/-- `run_unlock` (`src/cmd/unlock.rs`): short-circuit when the dataset is
already unlocked (propagating a query error), resolve the encryption root,
then run the bounded attempt loop with `fallback_allowed =
cfg.fallback.enabled && !opts.strict_usb`. -/
def runUnlock (env : UnlockEnv) (cfg : ConfigFile) (opts : UnlockOptions)
    (dataset : String) : Except UnlockErr Unit × List UEvent :=
  match env.isUnlocked with
  | Except.error m => (Except.error (UnlockErr.queryFailed m), [])
  | Except.ok true => (Except.ok (), [])
  | Except.ok false =>
    let root := resolveRoot env dataset
    let fallbackAllowed := cfg.fallback.enabled && !opts.strictUsb
    unlockAttempts env fallbackAllowed root MAX_ATTEMPTS 1 true

/-- The per-attempt USB oracle induced by a fixed file state: every attempt
re-runs `load_usb_key_material` against the same file, with structured
errors rendered to the message strings `run_unlock` sees. -/
def usbOracle (sha : List Nat → List Nat) (fs : UsbFs) (cfg : ConfigFile) :
    Nat → Except String (List Nat) := fun _ =>
  match loadUsbKeyMaterial sha fs cfg with
  | Except.ok k => Except.ok k
  | Except.error e => Except.error e.render

/-! ## `src/cmd/base.rs` — `Cmd::wait_with_timeout`

The polling loop is embedded with the child process and the wall clock as
oracles indexed by the poll iteration: `tryWait n` is the result of
`child.try_wait()` at iteration `n` (an `Err` propagates via `?`), and
`timedOutAt n` is the boolean `start.elapsed() > timeout` at iteration `n`.
The two pipe-reader threads are the `stdoutRes`/`stderrRes` outcomes, joined
after the loop.  The loop itself is unbounded in Rust, so the model takes a
fuel parameter and returns `none` when the fuel runs out. -/

/-- `struct OutputData`. -/
structure OutputData where
  stdout : String
  stderr : String
  status : Int
  deriving DecidableEq, Repr

/-- Oracles for one `wait_with_timeout` run. The exit status inside
`tryWait` is `ExitStatus::code()` (`none` when killed by a signal). -/
structure ExecEnv where
  tryWait : Nat → Except String (Option (Option Int))
  timedOutAt : Nat → Bool
  stdoutRes : Except String String
  stderrRes : Except String String

/-- How the polling loop ended. -/
inductive WaitLoopOut where
  | exited (code : Option Int)
  | timedOut
  | tryWaitErr (msg : String)
  | fuelOut
  deriving DecidableEq, Repr

/-- The polling loop of `wait_with_timeout`: at each iteration `try_wait` is
consulted first; only if the child has not exited is the timeout checked. -/
def waitPoll (env : ExecEnv) : Nat → Nat → WaitLoopOut
  | 0, _ => WaitLoopOut.fuelOut
  | fuel + 1, n =>
    match env.tryWait n with
    | Except.error m => WaitLoopOut.tryWaitErr m
    | Except.ok (some code) => WaitLoopOut.exited code
    | Except.ok none =>
      if env.timedOutAt n then WaitLoopOut.timedOut
      else waitPoll env fuel (n + 1)

/-- `exit_status.map(|s| s.code().unwrap_or(-1)).unwrap_or(-1)`. -/
def statusCode (code : Option Int) : Int := code.getD (-1)

/-- `Cmd::wait_with_timeout` after the loop: a `try_wait` error propagates
before the readers are joined; otherwise the readers are joined (their
errors propagate), then a timed-out run becomes an error and only a clean
exit produces an `OutputData`. -/
def waitWithTimeout (env : ExecEnv) (fuel : Nat) : Option (Except String OutputData) :=
  match waitPoll env fuel 0 with
  | WaitLoopOut.fuelOut => none
  | WaitLoopOut.tryWaitErr m => some (Except.error m)
  | out =>
    match env.stdoutRes, env.stderrRes with
    | Except.error m, _ => some (Except.error m)
    | Except.ok _, Except.error m => some (Except.error m)
    | Except.ok so, Except.ok se =>
      match out with
      | WaitLoopOut.timedOut => some (Except.error "Command timed out")
      | WaitLoopOut.exited code =>
          some (Except.ok { stdout := so, stderr := se, status := statusCode code })
      | _ => none

/-! ## `src/util/atomic.rs` — `atomic_write_bytes`

The filesystem is a map from full path strings to entries (content,
permission bits, symlink flag) plus the process umask.  Directories are
implicit (the destination is given as directory + file name, so
`parent_dir` succeeds, and `create_dir_all`/`fsync` are metadata no-ops in
the model).  `nanoid::nanoid!(8)` is an oracle `rand : Nat → String`
indexed by call count.  `OpenOptions::mode` is masked by the process umask
at creation time (POSIX `open(2)`), while `fs::set_permissions` is an exact
`chmod` masked only to the 12 permission bits. -/

/-- One filesystem entry. -/
structure FsEntry where
  content : List Nat
  mode : Nat
  symlink : Bool
  deriving DecidableEq, Repr

/-- Filesystem state: files by full path, plus the process umask. -/
structure Fs where
  files : String → Option FsEntry
  umask : Nat

/-- Permission bits applied when a file is created with `mode` under
`umask`: `mode & ~umask`, within the 12 permission bits. -/
def createMode (mode umask : Nat) : Nat :=
  Nat.land (mode % 4096) (4095 - umask % 4096)

/-- `fs::symlink_metadata` check of `reject_symlink_target`: true iff the
path exists and is a symlink. -/
def isSymlinkAt (fs : Fs) (path : String) : Bool :=
  match fs.files path with
  | some e => e.symlink
  | none => false

/-- The temp-file candidate produced at nanoid call `i`. -/
def tmpCand (dir name : String) (rand : Nat → String) (i : Nat) : String :=
  dir ++ "/" ++ name ++ ".tmp-" ++ rand i

/-- The collision-avoidance loop (`for _ in 0..8`): each pass draws a fresh
name and stops at the first free one; if none is free the last draw stands
(and `create_new` will fail). -/
def pickTmpIdx (free : Nat → Bool) : Nat → Nat → Nat
  | 0, i => i - 1
  | tries + 1, i => if free i then i else pickTmpIdx free tries (i + 1)

/-- `atomic_write_bytes` (`src/util/atomic.rs`): refuse a symlink target;
without `force` refuse an existing target; create a fresh temp file in the
same directory with `create_new` and the requested mode (masked by the
umask); write and fsync the bytes; rename over the destination; re-assert
the exact permissions with `set_permissions`; fsync the directory. -/
def atomicWriteBytes (rand : Nat → String) (fs : Fs) (dir name : String)
    (bytes : List Nat) (mode : Nat) (force : Bool) : Except String Fs :=
  let path := dir ++ "/" ++ name
  let tmp := tmpCand dir name rand
    (pickTmpIdx (fun i => (fs.files (tmpCand dir name rand i)).isNone) 8 0)
  if isSymlinkAt fs path then
    Except.error ("Refusing to write to symlink: " ++ path)
  else if !force && (fs.files path).isSome then
    Except.error ("File already exists (use --force to overwrite): " ++ path)
  else
    if (fs.files tmp).isSome then
      Except.error ("Open temp file failed: " ++ tmp)
    else
      let created : FsEntry :=
        { content := bytes, mode := createMode mode fs.umask, symlink := false }
      let afterCreate : String → Option FsEntry :=
        fun p => if p = tmp then some created else fs.files p
      let afterRename : String → Option FsEntry :=
        fun p => if p = path then afterCreate tmp
                 else if p = tmp then none
                 else afterCreate p
      let afterChmod : String → Option FsEntry :=
        fun p => if p = path then (afterRename p).map (fun e => { e with mode := mode % 4096 })
                 else afterRename p
      Except.ok { files := afterChmod, umask := fs.umask }

/-- Number of key-load calls recorded in a trace. -/
def isLoadEvent : UEvent → Bool
  | UEvent.loadKey _ _ _ => true
  | _ => false

/-- Count of key-load calls in a trace. -/
def countLoads (evs : List UEvent) : Nat := (evs.filter isLoadEvent).length

/-! ## Concrete fixtures used by the witness theorems. -/

/-- A session whose USB read always fails and whose key-load always rejects. -/
def envUsbDown : UnlockEnv :=
  { isUnlocked := Except.ok false
    encryptionRoot := Except.ok "rpool/ROOT"
    usbLoad := fun _ => Except.error "boom"
    promptFallback := fun _ => Except.ok [1, 2]
    loadKeyTree := fun _ _ _ => Except.error "denied" }

/-- A session whose USB read succeeds but whose key-load always rejects. -/
def envUsbRejected : UnlockEnv :=
  { envUsbDown with usbLoad := fun _ => Except.ok [9, 9] }

/-- A session whose target is already unlocked. -/
def envAvailable : UnlockEnv :=
  { envUsbDown with isUnlocked := Except.ok true }

/-- A configuration with fallback disabled and a reference checksum. -/
def cfgNoFallback : ConfigFile :=
  { usb := { keyHexPath := "/run/beskar/key.hex", expectedSha256 := some "ff" }
    fallback := { enabled := false, askpass := false, askpassPath := none } }

/-- The same configuration with fallback enabled. -/
def cfgWithFallback : ConfigFile :=
  { cfgNoFallback with fallback := { cfgNoFallback.fallback with enabled := true } }

/-- A degenerate hash oracle for exercising the checksum gate. -/
def shaZero : List Nat → List Nat := fun _ => List.replicate 32 0

/-- A key file holding 64 ASCII `0` characters. -/
def usbFsZeros : UsbFs := { present := true, content := Except.ok (List.replicate 64 '0') }

/-- A fixed nanoid oracle. -/
def c9rand : Nat → String := fun _ => "A1B2C3D4"

/-- An empty filesystem with umask `0o022`. -/
def c9fs0 : Fs := { files := fun _ => none, umask := 0o022 }

/-- The filesystem produced by one forced atomic write into `c9fs0`. -/
def c9result : Fs :=
  match atomicWriteBytes c9rand c9fs0 "/etc" "beskar.key" [7, 8] 0o400 true with
  | Except.ok f => f
  | Except.error _ => c9fs0

/-- An executor run whose child never exits and whose clock expires at the
third poll. -/
def execStuck : ExecEnv :=
  { tryWait := fun _ => Except.ok none
    timedOutAt := fun n => decide (2 ≤ n)
    stdoutRes := Except.ok "out"
    stderrRes := Except.ok "err" }

/-! # Theorems -/

/-! ## Helper lemmas -/

/-- Unfolding lemma for the hex byte expansion. -/
theorem hexEncodeAsciiBytes_cons (b : Nat) (t : List Nat) :
    hexEncodeAsciiBytes (b :: t) =
      hexDigitByte (b / 16 % 16) :: hexDigitByte (b % 16) :: hexEncodeAsciiBytes t := rfl

theorem hexEncodeAsciiBytes_length (k : List Nat) :
    (hexEncodeAsciiBytes k).length = 2 * k.length := by
  induction k with
  | nil => rfl
  | cons b t ih => rw [hexEncodeAsciiBytes_cons]; simp [ih]; omega

theorem hexDigitByte_isHex {d : Nat} (h : d < 16) :
    isAsciiHexDigitByte (hexDigitByte d) = true := by
  interval_cases d <;> rfl

theorem hexByteVal_hexDigitByte {d : Nat} (h : d < 16) :
    hexByteVal (hexDigitByte d) = d := by
  interval_cases d <;> rfl

theorem filter_hexEncodeAsciiBytes (k : List Nat) :
    (hexEncodeAsciiBytes k).filter isAsciiHexDigitByte = hexEncodeAsciiBytes k := by
  induction k with
  | nil => rfl
  | cons b t ih =>
    rw [hexEncodeAsciiBytes_cons, List.filter_cons_of_pos, List.filter_cons_of_pos, ih]
    · exact hexDigitByte_isHex (Nat.mod_lt _ (by omega))
    · exact hexDigitByte_isHex (Nat.mod_lt _ (by omega))

theorem hexDecode_hexEncodeAsciiBytes (k : List Nat) (h : ∀ b ∈ k, b < 256) :
    hexDecodeByteChars (hexEncodeAsciiBytes k) = k := by
  induction k with
  | nil => rfl
  | cons b t ih =>
    have hb : b < 256 := h b (by simp)
    rw [hexEncodeAsciiBytes_cons]
    show (hexByteVal (hexDigitByte (b / 16 % 16)) * 16 + hexByteVal (hexDigitByte (b % 16)))
        :: hexDecodeByteChars (hexEncodeAsciiBytes t) = b :: t
    rw [hexByteVal_hexDigitByte (Nat.mod_lt _ (by omega)),
        hexByteVal_hexDigitByte (Nat.mod_lt _ (by omega)),
        ih (fun x hx => h x (by simp [hx]))]
    have hdiv : b / 16 < 16 := Nat.div_lt_of_lt_mul (by omega)
    rw [Nat.mod_eq_of_lt hdiv]
    have hb' : b / 16 * 16 + b % 16 = b := by omega
    rw [hb']

/-- Invariant of the lockout fold: the delay never exceeds the cap, and the
cap is untouched. -/
theorem applyFailures_invariant (ts : List Nat) (l : Lockout) (h : l.delay ≤ l.maxDelay) :
    (l.applyFailures ts).delay ≤ l.maxDelay ∧ (l.applyFailures ts).maxDelay = l.maxDelay := by
  induction ts generalizing l with
  | nil => exact ⟨h, rfl⟩
  | cons t ts ih =>
    have := ih (l.registerFailure t) (by simp [Lockout.registerFailure])
    simpa [Lockout.applyFailures, Lockout.registerFailure] using this

/-! ## C4 — lockout delay monotone, capped, reset to base -/

/-- Claim C4: after any sequence of consecutive `register_failure` calls on a
fresh `Lockout` with no intervening `reset`, one more `register_failure`
never decreases the delay and never pushes it above the 60-second maximum,
and `reset` restores the 5-second base delay. -/
theorem lockout_delay_monotone_capped_reset (ts : List Nat) (now : Nat) :
    (Lockout.new.applyFailures ts).delay ≤
      ((Lockout.new.applyFailures ts).registerFailure now).delay ∧
    ((Lockout.new.applyFailures ts).registerFailure now).delay ≤ 60 ∧
    ((Lockout.new.applyFailures ts).reset).delay = 5 := by
  have hmax60 : (Lockout.new.applyFailures ts).maxDelay = 60 := by
    have := (applyFailures_invariant ts Lockout.new (by decide)).2
    simpa [Lockout.new] using this
  have hle60 : (Lockout.new.applyFailures ts).delay ≤ 60 := by
    exact (applyFailures_invariant ts Lockout.new (by decide)).1
  refine ⟨?_, ?_, rfl⟩
  · simp only [Lockout.registerFailure, hmax60]
    omega
  · simp only [Lockout.registerFailure, hmax60]
    omega

/-! ## C3 — command runner allowlist invariant -/

/-- Claim C3: `Cmd::new_allowlisted` succeeds only with a path from the fixed
allowlist (and the constructed runner carries exactly that path), and fails
with the not-in-allowlist error for every path outside it. -/
theorem cmd_allowlist_invariant (path : String) (timeout : Nat) :
    (∀ c, Cmd.newAllowlisted path timeout = Except.ok c → c.path ∈ allowedBinaries) ∧
    (path ∉ allowedBinaries →
      Cmd.newAllowlisted path timeout =
        Except.error ("Command not in allowlist: " ++ path)) := by
  constructor
  · intro c hc
    rw [Cmd.newAllowlisted] at hc
    split at hc
    · next hmem =>
      injection hc with h
      rw [← h]
      simpa using hmem
    · exact absurd hc (by simp)
  · intro hmem
    have hc : allowedBinaries.contains path = false := by
      rw [Bool.eq_false_iff]
      intro h
      exact hmem (by simpa using h)
    simp [Cmd.newAllowlisted, hc]
    exact hmem

/-- Witness for C3: an allowlisted path is accepted and carried verbatim; a
path outside the allowlist is rejected. -/
theorem cmd_allowlist_invariant_witness :
    (Cmd.mk "/sbin/zfs" 5).path ∈ allowedBinaries ∧
    Cmd.newAllowlisted "/etc/evil" 5 =
      Except.error ("Command not in allowlist: " ++ "/etc/evil") :=
  ⟨(cmd_allowlist_invariant "/sbin/zfs" 5).1 (Cmd.mk "/sbin/zfs" 5) rfl,
   (cmd_allowlist_invariant "/etc/evil" 5).2 (by decide)⟩

/-! ## C10 — raw precedence in key file auto-detection -/

/-- Claim C10: a key file of exactly 32 bytes is returned unchanged with encoding
`Raw`; the hex branch is never consulted, even if the bytes are ASCII hex
digits. -/
theorem read_key_material_raw_precedence (data : List Nat) (h : data.length = 32) :
    readKeyMaterial data = Except.ok { raw := data, encoding := KeyEncoding.raw } := by
  simp [readKeyMaterial, h]

/-- Witness for C10: 32 bytes that are all ASCII hex digits (`'0'` = 48)
still come back as `Raw`, bytes unchanged. -/
theorem read_key_material_raw_precedence_witness :
    (List.replicate 32 48).length = 32 ∧
    readKeyMaterial (List.replicate 32 48) =
      Except.ok { raw := List.replicate 32 48, encoding := KeyEncoding.raw } :=
  ⟨by decide, read_key_material_raw_precedence (List.replicate 32 48) (by decide)⟩

/-! ## C6 — both key file encodings accepted and normalized identically -/

/-- Claim C6: for any 32-byte key, the raw encoding (the bytes themselves) and the
legacy encoding (its 64 ASCII hex characters) are both accepted by
`read_key_material` and normalize to the same 32-byte value. -/
theorem read_key_material_both_encodings (k : List Nat)
    (hlen : k.length = 32) (hbytes : ∀ b ∈ k, b < 256) :
    readKeyMaterial k = Except.ok { raw := k, encoding := KeyEncoding.raw } ∧
    readKeyMaterial (hexEncodeAsciiBytes k) =
      Except.ok { raw := k, encoding := KeyEncoding.hex } := by
  refine ⟨read_key_material_raw_precedence k hlen, ?_⟩
  have h64 : (hexEncodeAsciiBytes k).length = 64 := by
    rw [hexEncodeAsciiBytes_length, hlen]
  rw [readKeyMaterial]
  rw [if_neg (by omega)]
  simp [filter_hexEncodeAsciiBytes, h64, hexDecode_hexEncodeAsciiBytes k hbytes]

/-- Witness for C6 at the 32-byte key `0xab…ab`. -/
theorem read_key_material_both_encodings_witness :
    readKeyMaterial (List.replicate 32 171) =
      Except.ok { raw := List.replicate 32 171, encoding := KeyEncoding.raw } ∧
    readKeyMaterial (hexEncodeAsciiBytes (List.replicate 32 171)) =
      Except.ok { raw := List.replicate 32 171, encoding := KeyEncoding.hex } :=
  read_key_material_both_encodings (List.replicate 32 171) (by decide)
    (by intro b hb; simp at hb; omega)

/-! ## C8 — idempotent short-circuit on an already-available root -/

/-- Claim C8: when the key status is already `available`, `run_unlock` returns
success with an empty effect trace — no USB read, no passphrase prompt, no
key-load call; since the orchestrator is a pure function of its session
environment, a second consecutive call on the still-available target is the
very same application and succeeds identically. -/
theorem unlock_available_short_circuit (env : UnlockEnv) (cfg : ConfigFile)
    (opts : UnlockOptions) (dataset : String) (h : env.isUnlocked = Except.ok true) :
    runUnlock env cfg opts dataset = (Except.ok (), []) := by
  simp [runUnlock, h]

/-- Witness for C8. -/
theorem unlock_available_short_circuit_witness :
    runUnlock envAvailable cfgNoFallback (UnlockOptions.mk false) "rpool/ROOT/ubuntu" =
      (Except.ok (), []) :=
  unlock_available_short_circuit envAvailable cfgNoFallback (UnlockOptions.mk false)
    "rpool/ROOT/ubuntu" rfl

/-! ## Loop lemmas for the unlock orchestrator -/

/-- With fallback disallowed the attempt loop never emits a passphrase
prompt event, from any loop state. -/
theorem no_prompt_of_no_fallback (env : UnlockEnv) (root : String) :
    ∀ (rem attempt : Nat) (usbAv : Bool) (n : Nat),
      UEvent.promptPass n ∉ (unlockAttempts env false root rem attempt usbAv).2 := by
  intro rem
  induction rem with
  | zero => intro attempt usbAv n; simp [unlockAttempts]
  | succ rem ih =>
    intro attempt usbAv n
    cases usbAv with
    | false =>
      simp [unlockAttempts, acquireKey]
    | true =>
      cases husb : env.usbLoad attempt with
      | error m =>
        simp [unlockAttempts, acquireKey, husb]
      | ok key =>
        cases hload : env.loadKeyTree attempt root key with
        | ok l =>
          simp [unlockAttempts, acquireKey, husb, hload]
        | error msg =>
          by_cases hc : containsStr msg alreadyLoadedNeedle
          · simp [unlockAttempts, acquireKey, husb, hload, hc]
          · simp [unlockAttempts, acquireKey, husb, hload, hc]
            exact ih (attempt + 1) true n

/-! ## C2 — fallback gating: disabled fallback / strict mode never prompts -/

/-- Claim C2: with `fallback.enabled = false` or strict-USB mode requested,
`run_unlock` never emits a passphrase prompt, and a failing USB read on the
first attempt terminates the session immediately with the strict-mode
error. -/
theorem unlock_no_fallback_never_prompts (env : UnlockEnv) (cfg : ConfigFile)
    (opts : UnlockOptions) (dataset : String)
    (hdis : cfg.fallback.enabled = false ∨ opts.strictUsb = true) :
    (∀ n, UEvent.promptPass n ∉ (runUnlock env cfg opts dataset).2) ∧
    (∀ m, env.isUnlocked = Except.ok false → env.usbLoad 1 = Except.error m →
      (runUnlock env cfg opts dataset).1 = Except.error (UnlockErr.usbStrictFailed m)) := by
  have hfb : (cfg.fallback.enabled && !opts.strictUsb) = false := by
    rcases hdis with h | h <;> simp [h]
  constructor
  · intro n
    match hiu : env.isUnlocked with
    | Except.error m => simp [runUnlock, hiu]
    | Except.ok true => simp [runUnlock, hiu]
    | Except.ok false =>
      rw [runUnlock]
      simp only [hiu, hfb]
      exact no_prompt_of_no_fallback env (resolveRoot env dataset) MAX_ATTEMPTS 1 true n
  · intro m hiu husb
    rw [runUnlock]
    simp only [hiu, hfb]
    simp [MAX_ATTEMPTS, unlockAttempts, acquireKey, husb]

/-- Witness for C2: fallback disabled, USB read failing — the session ends
with the strict-mode error and attempt 1 produced no prompt event. -/
theorem unlock_no_fallback_never_prompts_witness :
    UEvent.promptPass 1 ∉
      (runUnlock envUsbDown cfgNoFallback (UnlockOptions.mk false) "rpool/ROOT/ubuntu").2 ∧
    (runUnlock envUsbDown cfgNoFallback (UnlockOptions.mk false) "rpool/ROOT/ubuntu").1 =
      Except.error (UnlockErr.usbStrictFailed "boom") :=
  ⟨(unlock_no_fallback_never_prompts envUsbDown cfgNoFallback (UnlockOptions.mk false)
      "rpool/ROOT/ubuntu" (Or.inl rfl)).1 1,
   (unlock_no_fallback_never_prompts envUsbDown cfgNoFallback (UnlockOptions.mk false)
      "rpool/ROOT/ubuntu" (Or.inl rfl)).2 "boom" rfl rfl⟩

/-! ## C1 — checksum gate -/

/-- When every USB read fails, no key bytes of USB origin ever reach the
key-load operation, from any loop state and under any fallback policy. -/
theorem no_usb_load_of_usb_errors (env : UnlockEnv) (root : String) (fb : Bool)
    (husb : ∀ n, ∃ m, env.usbLoad n = Except.error m) :
    ∀ (rem attempt : Nat) (usbAv : Bool) (r : String) (k : List Nat),
      UEvent.loadKey KeyOrigin.usb r k ∉ (unlockAttempts env fb root rem attempt usbAv).2 := by
  intro rem
  induction rem with
  | zero => intro attempt usbAv r k; simp [unlockAttempts]
  | succ rem ih =>
    intro attempt usbAv r k
    have promptCase : ∀ (usbEvs : List UEvent),
        (∀ e ∈ usbEvs, ¬ isLoadEvent e = true) → True := fun _ _ => trivial
    clear promptCase
    obtain ⟨m, hm⟩ := husb attempt
    cases usbAv with
    | true =>
      cases fb with
      | false =>
        simp [unlockAttempts, acquireKey, hm]
      | true =>
        cases hpf : env.promptFallback attempt with
        | error fm => simp [unlockAttempts, acquireKey, hm, hpf]
        | ok pass =>
          cases hpe : pass.isEmpty with
          | true => simp [unlockAttempts, acquireKey, hm, hpf, hpe]
          | false =>
            cases hload : env.loadKeyTree attempt root pass with
            | ok l => simp [unlockAttempts, acquireKey, hm, hpf, hpe, hload]
            | error msg =>
              by_cases hc : containsStr msg alreadyLoadedNeedle
              · simp [unlockAttempts, acquireKey, hm, hpf, hpe, hload, hc]
              · simp [unlockAttempts, acquireKey, hm, hpf, hpe, hload, hc]
                exact ih (attempt + 1) false r k
    | false =>
      cases fb with
      | false => simp [unlockAttempts, acquireKey]
      | true =>
        cases hpf : env.promptFallback attempt with
        | error fm => simp [unlockAttempts, acquireKey, hpf]
        | ok pass =>
          cases hpe : pass.isEmpty with
          | true => simp [unlockAttempts, acquireKey, hpf, hpe]
          | false =>
            cases hload : env.loadKeyTree attempt root pass with
            | ok l => simp [unlockAttempts, acquireKey, hpf, hpe, hload]
            | error msg =>
              by_cases hc : containsStr msg alreadyLoadedNeedle
              · simp [unlockAttempts, acquireKey, hpf, hpe, hload, hc]
              · simp [unlockAttempts, acquireKey, hpf, hpe, hload, hc]
                exact ih (attempt + 1) false r k

/-- Claim C1: if `config.usb.expected_sha256` is set and the SHA-256 digest of
the 32 bytes decoded from the USB key file does not match it under
case-insensitive comparison, then `load_usb_key_material` returns the
checksum-mismatch error, and any `run_unlock` session drawing its USB key
through that gate never passes USB-origin key bytes to a key-load call. -/
theorem usb_checksum_gate (sha : List Nat → List Nat) (fs : UsbFs) (cfg : ConfigFile)
    (text : List Char) (expected : String)
    (hpres : fs.present = true)
    (hcontent : fs.content = Except.ok text)
    (hexp : cfg.usb.expectedSha256 = some expected)
    (hlen : (text.filter isAsciiHexDigit).length = 64)
    (hmm : eqIgnoreAsciiCase
      (hexEncode (sha (hexDecodeChars (text.filter isAsciiHexDigit)))) expected = false) :
    loadUsbKeyMaterial sha fs cfg =
      Except.error (UsbErr.checksumMismatch expected
        (hexEncode (sha (hexDecodeChars (text.filter isAsciiHexDigit))))) ∧
    ∀ (iu : Except String Bool) (er : Except String String)
      (pf : Nat → Except String (List Nat))
      (lkt : Nat → String → List Nat → Except String (List String))
      (opts : UnlockOptions) (dataset root : String) (key : List Nat),
      UEvent.loadKey KeyOrigin.usb root key ∉
        (runUnlock (UnlockEnv.mk iu er (usbOracle sha fs cfg) pf lkt) cfg opts dataset).2 := by
  have hgate : loadUsbKeyMaterial sha fs cfg =
      Except.error (UsbErr.checksumMismatch expected
        (hexEncode (sha (hexDecodeChars (text.filter isAsciiHexDigit))))) := by
    rw [loadUsbKeyMaterial]
    simp only [hpres, hcontent, Bool.not_true, Bool.false_eq_true, if_false]
    simp [hlen, hexp, hmm]
  refine ⟨hgate, ?_⟩
  intro iu er pf lkt opts dataset root key
  have husb : ∀ n, ∃ m,
      (UnlockEnv.mk iu er (usbOracle sha fs cfg) pf lkt).usbLoad n = Except.error m := by
    intro n
    refine ⟨(UsbErr.checksumMismatch expected
      (hexEncode (sha (hexDecodeChars (text.filter isAsciiHexDigit))))).render, ?_⟩
    show usbOracle sha fs cfg n = _
    rw [usbOracle, hgate]
  match hiu : iu with
  | Except.error m => simp [runUnlock, hiu]
  | Except.ok true => simp [runUnlock, hiu]
  | Except.ok false =>
    rw [runUnlock]
    simp only
    exact no_usb_load_of_usb_errors _ _ _ husb MAX_ATTEMPTS 1 true root key

/-- Witness for C1: the all-zeros 64-hex key file against reference digest
`"ff"` under the degenerate hash — the gate rejects, and a full session
passes no USB bytes to the loader. -/
theorem usb_checksum_gate_witness :
    loadUsbKeyMaterial shaZero usbFsZeros cfgNoFallback =
      Except.error (UsbErr.checksumMismatch "ff"
        (hexEncode (shaZero (hexDecodeChars
          ((List.replicate 64 '0').filter isAsciiHexDigit))))) ∧
    UEvent.loadKey KeyOrigin.usb "rpool/ROOT" [0] ∉
      (runUnlock (UnlockEnv.mk (Except.ok false) (Except.ok "rpool/ROOT")
        (usbOracle shaZero usbFsZeros cfgNoFallback)
        (fun _ => Except.ok [1, 2]) (fun _ _ _ => Except.error "denied"))
        cfgNoFallback (UnlockOptions.mk false) "rpool/ROOT/ubuntu").2 := by
  have h := usb_checksum_gate shaZero usbFsZeros cfgNoFallback
    (List.replicate 64 '0') "ff" rfl rfl rfl (by decide) (by decide)
  exact ⟨h.1, h.2 (Except.ok false) (Except.ok "rpool/ROOT")
    (fun _ => Except.ok [1, 2]) (fun _ _ _ => Except.error "denied")
    (UnlockOptions.mk false) "rpool/ROOT/ubuntu" "rpool/ROOT" [0]⟩

/-! ## C5 — bounded attempts and explicit exhaustion error -/

theorem countLoads_append (a b : List UEvent) :
    countLoads (a ++ b) = countLoads a + countLoads b := by
  simp [countLoads, List.filter_append]

theorem countLoads_loadKey (o : KeyOrigin) (r : String) (k : List Nat) :
    countLoads [UEvent.loadKey o r k] = 1 := rfl

theorem countLoads_cons_load (o : KeyOrigin) (r : String) (k : List Nat)
    (evs : List UEvent) :
    countLoads (UEvent.loadKey o r k :: evs) = countLoads evs + 1 := by
  simp [countLoads, isLoadEvent]

/-- The key-acquisition phase emits no key-load events (error side). -/
theorem acquireKey_error_events (env : UnlockEnv) (fb : Bool) (root : String)
    (attempt : Nat) (usbAv : Bool) (e : UnlockErr) (evs : List UEvent)
    (h : acquireKey env fb root attempt usbAv = Except.error (e, evs)) :
    countLoads evs = 0 := by
  rw [acquireKey] at h
  cases usbAv with
  | true =>
    cases husb : env.usbLoad attempt with
    | ok key => simp [husb] at h
    | error m =>
      cases fb with
      | false =>
        simp [husb] at h
        obtain ⟨-, h2⟩ := h
        subst h2
        simp [countLoads, isLoadEvent]
      | true =>
        cases hpf : env.promptFallback attempt with
        | error fm =>
          simp [husb, hpf] at h
          obtain ⟨-, h2⟩ := h
          subst h2
          simp [countLoads, isLoadEvent]
        | ok pass =>
          cases hpe : pass.isEmpty with
          | true =>
            simp [husb, hpf, hpe] at h
            obtain ⟨-, h2⟩ := h
            subst h2
            simp [countLoads, isLoadEvent]
          | false => simp [husb, hpf, hpe] at h
  | false =>
    cases fb with
    | false =>
      simp at h
      obtain ⟨-, h2⟩ := h
      subst h2
      simp [countLoads, isLoadEvent]
    | true =>
      cases hpf : env.promptFallback attempt with
      | error fm =>
        simp [hpf] at h
        obtain ⟨-, h2⟩ := h
        subst h2
        simp [countLoads, isLoadEvent]
      | ok pass =>
        cases hpe : pass.isEmpty with
        | true =>
          simp [hpf, hpe] at h
          obtain ⟨-, h2⟩ := h
          subst h2
          simp [countLoads, isLoadEvent]
        | false => simp [hpf, hpe] at h

/-- The key-acquisition phase emits no key-load events (success side). -/
theorem acquireKey_ok_events (env : UnlockEnv) (fb : Bool) (root : String)
    (attempt : Nat) (usbAv : Bool) (key : List Nat) (origin : KeyOrigin)
    (usbAv1 : Bool) (evs : List UEvent)
    (h : acquireKey env fb root attempt usbAv = Except.ok (key, origin, usbAv1, evs)) :
    countLoads evs = 0 := by
  rw [acquireKey] at h
  cases usbAv with
  | true =>
    cases husb : env.usbLoad attempt with
    | ok k2 =>
      simp [husb] at h
      obtain ⟨-, -, -, h4⟩ := h
      subst h4
      simp [countLoads, isLoadEvent]
    | error m =>
      cases fb with
      | false => simp [husb] at h
      | true =>
        cases hpf : env.promptFallback attempt with
        | error fm => simp [husb, hpf] at h
        | ok pass =>
          cases hpe : pass.isEmpty with
          | true => simp [husb, hpf, hpe] at h
          | false =>
            simp [husb, hpf, hpe] at h
            obtain ⟨-, -, -, h4⟩ := h
            subst h4
            simp [countLoads, isLoadEvent]
  | false =>
    cases fb with
    | false => simp at h
    | true =>
      cases hpf : env.promptFallback attempt with
      | error fm => simp [hpf] at h
      | ok pass =>
        cases hpe : pass.isEmpty with
        | true => simp [hpf, hpe] at h
        | false =>
          simp [hpf, hpe] at h
          obtain ⟨-, -, -, h4⟩ := h
          subst h4
          simp [countLoads, isLoadEvent]

/-- The attempt loop performs at most `rem` key-load calls. -/
theorem countLoads_unlockAttempts_le (env : UnlockEnv) (fb : Bool) (root : String) :
    ∀ (rem attempt : Nat) (usbAv : Bool),
      countLoads (unlockAttempts env fb root rem attempt usbAv).2 ≤ rem := by
  intro rem
  induction rem with
  | zero => intro attempt usbAv; simp [unlockAttempts, countLoads]
  | succ rem ih =>
    intro attempt usbAv
    rw [unlockAttempts]
    cases hacq : acquireKey env fb root attempt usbAv with
    | error pr =>
      obtain ⟨e, evs⟩ := pr
      have h0 := acquireKey_error_events env fb root attempt usbAv e evs hacq
      simp [h0]
    | ok quad =>
      obtain ⟨key, origin, usbAv1, evs0⟩ := quad
      have h0 := acquireKey_ok_events env fb root attempt usbAv key origin usbAv1 evs0 hacq
      cases hload : env.loadKeyTree attempt root key with
      | ok l =>
        simp [hload, countLoads_append, countLoads_loadKey, h0]
      | error msg =>
        cases origin with
        | usb =>
          cases fb with
          | true =>
            have hrec := ih (attempt + 1) false
            simp [hload, countLoads_append, countLoads_cons_load, countLoads_loadKey, h0]
            omega
          | false =>
            by_cases hc : containsStr msg alreadyLoadedNeedle
            · simp [hload, hc, countLoads_append, countLoads_loadKey, h0]
            · have hrec := ih (attempt + 1) usbAv1
              simp [hload, hc, countLoads_append, countLoads_cons_load, countLoads_loadKey, h0]
              omega
        | passphrase =>
          by_cases hc : containsStr msg alreadyLoadedNeedle
          · simp [hload, hc, countLoads_append, countLoads_loadKey, h0]
          · have hrec := ih (attempt + 1) usbAv1
            simp [hload, hc, countLoads_append, countLoads_cons_load, countLoads_loadKey, h0]
            omega

/-- Claim C5: `run_unlock` performs at most `MAX_ATTEMPTS = 3` key-load calls per
invocation, and when key material is acquired on every attempt but the
loader rejects it each time with a message that is not the already-loaded
idempotence case, the session ends in the explicit exhaustion error naming
the attempt bound and the resolved encryption root. -/
theorem unlock_bounded_attempts_and_exhaustion (env : UnlockEnv) (cfg : ConfigFile)
    (opts : UnlockOptions) (dataset : String) :
    countLoads (runUnlock env cfg opts dataset).2 ≤ MAX_ATTEMPTS ∧
    (∀ (uk pk : Nat → List Nat) (em : Nat → String → List Nat → String),
      env.isUnlocked = Except.ok false →
      (∀ n, env.usbLoad n = Except.ok (uk n)) →
      (∀ n, env.promptFallback n = Except.ok (pk n)) →
      (∀ n, (pk n).isEmpty = false) →
      (∀ n r k, env.loadKeyTree n r k = Except.error (em n r k)) →
      (∀ n r k, containsStr (em n r k) alreadyLoadedNeedle = false) →
      (runUnlock env cfg opts dataset).1 =
        Except.error (UnlockErr.exhausted MAX_ATTEMPTS (resolveRoot env dataset))) := by
  constructor
  · match hiu : env.isUnlocked with
    | Except.error m => simp [runUnlock, hiu, countLoads]
    | Except.ok true => simp [runUnlock, hiu, countLoads]
    | Except.ok false =>
      rw [runUnlock]
      simp only [hiu]
      exact countLoads_unlockAttempts_le env _ _ MAX_ATTEMPTS 1 true
  · intro uk pk em hiu husb hpk hpkne hload hnal
    rw [runUnlock]
    simp only [hiu]
    cases hfb : (cfg.fallback.enabled && !opts.strictUsb) with
    | false =>
      simp [MAX_ATTEMPTS, unlockAttempts, acquireKey, husb, hpk, hpkne, hload, hnal]
    | true =>
      simp [MAX_ATTEMPTS, unlockAttempts, acquireKey, husb, hpk, hpkne, hload, hnal]

/-- Witness for C5: USB key always read, loader always rejecting — three
load calls, then the exhaustion error naming the bound and the root. -/
theorem unlock_bounded_attempts_and_exhaustion_witness :
    countLoads (runUnlock envUsbRejected cfgWithFallback (UnlockOptions.mk false)
      "rpool/ROOT/ubuntu").2 ≤ 3 ∧
    (runUnlock envUsbRejected cfgWithFallback (UnlockOptions.mk false)
      "rpool/ROOT/ubuntu").1 = Except.error (UnlockErr.exhausted 3 "rpool/ROOT") := by
  have h := unlock_bounded_attempts_and_exhaustion envUsbRejected cfgWithFallback
    (UnlockOptions.mk false) "rpool/ROOT/ubuntu"
  exact ⟨h.1, h.2 (fun _ => [9, 9]) (fun _ => [1, 2]) (fun _ _ _ => "denied")
    rfl (fun _ => rfl) (fun _ => rfl) (fun _ => rfl) (fun _ _ _ => rfl)
    (fun _ _ _ => rfl)⟩

/-! ## C7 — a timed-out invocation is never reported as success -/

/-- If the clock has expired by poll `n` while the child has still not
exited at any poll up to `n`, the polling loop can only end in a timeout
(or run out of model fuel). -/
theorem waitPoll_timeout (env : ExecEnv) (n : Nat)
    (hto : env.timedOutAt n = true)
    (hwait : ∀ m, m ≤ n → env.tryWait m = Except.ok none) :
    ∀ (fuel start : Nat), start ≤ n →
      waitPoll env fuel start = WaitLoopOut.timedOut ∨
      waitPoll env fuel start = WaitLoopOut.fuelOut := by
  intro fuel
  induction fuel with
  | zero => intro start hs; right; rfl
  | succ fuel ih =>
    intro start hs
    rw [waitPoll, hwait start hs]
    cases hts : env.timedOutAt start with
    | true => left; simp
    | false =>
      have hne : start ≠ n := by
        intro he
        rw [he, hto] at hts
        exact Bool.noConfusion hts
      have : start + 1 ≤ n := by omega
      simpa using ih (start + 1) this

/-- Claim C7: whenever the wall-clock timeout elapses before the spawned child
exits, `Cmd::wait_with_timeout` (and hence `Cmd::run`) does not return a
successful `OutputData` — every completed run is an error. -/
theorem timeout_never_success (env : ExecEnv) (fuel n : Nat)
    (hto : env.timedOutAt n = true)
    (hwait : ∀ m, m ≤ n → env.tryWait m = Except.ok none) :
    ∀ d : OutputData, waitWithTimeout env fuel ≠ some (Except.ok d) := by
  intro d hcontra
  rcases waitPoll_timeout env n hto hwait fuel 0 (Nat.zero_le n) with h | h <;>
    rw [waitWithTimeout, h] at hcontra
  · cases hso : env.stdoutRes with
    | error m => rw [hso] at hcontra; simp at hcontra
    | ok so =>
      cases hse : env.stderrRes with
      | error m => rw [hso, hse] at hcontra; simp at hcontra
      | ok se => rw [hso, hse] at hcontra; simp at hcontra
  · simp at hcontra

/-- Witness for C7: a child that never exits under a clock that expires at
the third poll — the run resolves and is not a success. -/
theorem timeout_never_success_witness :
    waitWithTimeout execStuck 10 ≠ some (Except.ok (OutputData.mk "out" "err" 0)) :=
  timeout_never_success execStuck 10 2 (by decide) (fun m _ => rfl)
    (OutputData.mk "out" "err" 0)

/-! ## C9 — atomic write round-trip with exact permissions -/

/-- Claim C9: whenever `atomic_write_bytes` with `force = true` succeeds, the
destination holds exactly the written bytes as a regular file whose
permission bits are exactly the requested mode — independent of the process
umask, which influences only the temp file's creation mode before the final
`set_permissions`. -/
theorem atomic_write_roundtrip (rand : Nat → String) (fs : Fs) (dir name : String)
    (bytes : List Nat) (mode : Nat) (fsFinal : Fs)
    (hmode : mode < 4096)
    (hok : atomicWriteBytes rand fs dir name bytes mode true = Except.ok fsFinal) :
    fsFinal.files (dir ++ "/" ++ name) =
      some { content := bytes, mode := mode, symlink := false } := by
  rw [atomicWriteBytes] at hok
  split at hok
  · exact absurd hok (by simp)
  · rw [if_neg (by simp)] at hok
    split at hok
    · exact absurd hok (by simp)
    · injection hok with hfe
      rw [← hfe]
      simp [Nat.mod_eq_of_lt hmode]

/-- Witness for C9: a forced write into an empty filesystem with umask
`0o022` and mode `0o400`; the destination reads back byte-identical with
exactly mode `0o400`. -/
theorem atomic_write_roundtrip_witness :
    c9result.files ("/etc" ++ "/" ++ "beskar.key") =
      some { content := [7, 8], mode := 0o400, symlink := false } :=
  atomic_write_roundtrip c9rand c9fs0 "/etc" "beskar.key" [7, 8] 0o400 c9result
    (by decide) rfl

end Beskar
